import Mathlib

/-!
Verification of the changeset build orchestrator (`build.py`).

The embedding models:
- `Change` and its filename parsing (`FNAME_RE = (\d+)_(.*?)[.]py`, fullmatch),
  name humanization (`str.replace` steps plus Python `str.capitalize`);
- change discovery (`Change.collect_dir`) and sorting (`Build.changeset_add_dir`,
  Python `sorted` with key `[priority, id]`, modelled as a stable merge sort);
- the staging directory manager (`Build.tmpdir_mount` / `Build.tmpdir_umount`)
  over a flat filesystem of named directories, each a list of (file, content);
- the orchestrator `Build.build` with its apply loop, where the program of each
  change unit is an abstract state transformer supplied as a parameter;
- configuration layering (`Build.configure`, `configure_vars`, `configure_yaml`)
  over an attribute bag `String → String` with kwargs/YAML maps as
  `String → Option String`.

Python exceptions do not roll back object state, so every stateful operation
returns a `PyResult`: either `ok st` or `raised e st` with the state at the
point of the raise.
-/

/-- Errors of the embedded program.  `buildError` is `build.py`'s `BuildError`;
`fileNotFound` is Python's `FileNotFoundError`; `assertionError` models a failed
`assert`; `pyErr` stands for an arbitrary exception raised inside a change
unit's `build` entry operation.  `changeApplyError` is modelled from the spec:
the spec's `ChangeApplyError` wrapper class (id of the change plus underlying
cause) does not occur anywhere in the source; the constructor exists only so
that the spec's wrapping claim can be stated and compared with the code. -/
inductive Err where
  | buildError (msg : String)
  | fileNotFound
  | assertionError (msg : String)
  | pyErr (msg : String)
  | changeApplyError (id : String) (cause : Err)
deriving DecidableEq, Repr

/-- Result of a Python operation: normal return, or an exception carrying the
object state as it was at the moment of the raise (Python exceptions do not
undo side effects already performed). -/
inductive PyResult (σ : Type) where
  | ok (st : σ)
  | raised (e : Err) (st : σ)
deriving DecidableEq, Repr

/-- State component of a `PyResult`, whether it returned or raised. -/
def PyResult.state {σ : Type} : PyResult σ → σ
  | .ok st => st
  | .raised _ st => st

/-- Error component of a `PyResult` (`none` on normal return). -/
def PyResult.err {σ : Type} : PyResult σ → Option Err
  | .ok _ => none
  | .raised e _ => some e

/-! ### Filename parsing: `Change.FNAME_RE = (\d+)_(.*?)[.]py`, `re.fullmatch` -/

/-- Fullmatch of `(\d+)_(.*?)[.]py` on a list of characters, returning the two
groups.  Because the match is a fullmatch and `[.]py` is a fixed 3-character
tail, the decomposition is forced: the priority group is the maximal leading
digit run (it must be followed by `_`, which is not a digit), and the id group
is everything between that `_` and the trailing `.py`.  Python's `.` does not
match a newline, hence the `'\n' ∉ id` condition. -/
def fnameMatch (cs : List Char) : Option (List Char × List Char) :=
  let p := cs.takeWhile Char.isDigit
  let rest := cs.dropWhile Char.isDigit
  if p.isEmpty then none
  else
    match rest with
    | '_' :: tail =>
      if 3 ≤ tail.length then
        let id := tail.take (tail.length - 3)
        let ext := tail.drop (tail.length - 3)
        if ext = ['.', 'p', 'y'] ∧ '\n' ∉ id then some (p, id) else none
      else none
    | _ => none

/-- Python `int` on a digit string. -/
def digitsToNat (cs : List Char) : Nat :=
  cs.foldl (fun a c => a * 10 + (c.toNat - '0'.toNat)) 0

/-! ### Humanization: the `str.replace` chain and Python `str.capitalize` -/

/-- Python `str.replace(pat, rep)`: replace all non-overlapping occurrences of
`pat`, scanning left to right.  (With an empty pattern the source never calls
it; we return the input unchanged in that case.) -/
def listReplace (pat rep : List Char) (cs : List Char) : List Char :=
  match pat, cs with
  | [], cs => cs
  | _ :: _, [] => []
  | p :: ps, c :: cs =>
    if (p :: ps).isPrefixOf (c :: cs) then
      rep ++ listReplace (p :: ps) rep ((c :: cs).drop (p :: ps).length)
    else
      c :: listReplace (p :: ps) rep cs
termination_by cs.length
decreasing_by
  · simp only [List.drop_succ_cons, List.length_cons, List.length_drop]
    omega
  · simp

/-- Python `str.capitalize`: first character title-cased (for ASCII: upper),
all remaining characters lower-cased. -/
def pyCapitalize (cs : List Char) : List Char :=
  match cs with
  | [] => []
  | c :: rest => c.toUpper :: rest.map Char.toLower

/-- The sentinel `'\0TEMP\0'` used by `Change.__init__` to escape doubled
underscores. -/
def tmpSentinel : List Char := ['\x00', 'T', 'E', 'M', 'P', '\x00']

/-- Name humanization from `Change.__init__`: `id.replace('__', tmp)`,
`.replace('_', ' ')`, `.replace(tmp, '_')`, then `str.capitalize`. -/
def humanizeL (id : List Char) : List Char :=
  let name := listReplace ['_', '_'] tmpSentinel id
  let name := listReplace ['_'] [' '] name
  let name := listReplace tmpSentinel ['_'] name
  pyCapitalize name

/-- String wrapper for `humanizeL`. -/
def humanize (id : String) : String :=
  String.mk (humanizeL id.toList)

/-- Modelled from the spec: the spec's own description of humanization —
"doubled underscores become a single literal underscore, remaining single
underscores become spaces, and the first letter is capitalized" — which, unlike
Python's `str.capitalize`, leaves the characters after the first unchanged.
Used only to compare the spec's wording against the code. -/
def specHumanize (id : String) : String :=
  let name := listReplace ['_', '_'] tmpSentinel id.toList
  let name := listReplace ['_'] [' '] name
  let name := listReplace tmpSentinel ['_'] name
  String.mk (match name with
             | [] => []
             | c :: rest => c.toUpper :: rest)

/-! ### Change -/

/-- The `Change` dataclass: `priority`, `id`, `name`, `file`. -/
structure Change where
  priority : Nat
  id : String
  name : String
  file : String
deriving DecidableEq, Repr

/-- `Change.__init__` on a file name that is known to exist (as every entry of
a directory listing does): parses priority and id via `FNAME_RE.fullmatch`,
derives the humanized name, stores the path.  `none` corresponds to the
`assert match, 'Wrong file path'` failure. -/
def Change.ofFile (fname : String) : Option Change :=
  (fnameMatch fname.toList).map fun g =>
    { priority := digitsToNat g.1
      id := String.mk g.2
      name := String.mk (humanizeL g.2)
      file := fname }

/-- `Change.collect_dir`: construct a `Change` for every immediate child of the
directory whose name fullmatches `FNAME_RE`.  The directory is given by its
listing (the names `iterdir` yields, in listing order). -/
def collect_dir (files : List String) : List Change :=
  files.filterMap Change.ofFile

/-- Lexicographic comparison of code-point sequences, as Python compares
strings. -/
def codeLE : List Nat → List Nat → Bool
  | [], _ => true
  | _ :: _, [] => false
  | a :: as, b :: bs => if a = b then codeLE as bs else decide (a < b)

/-- Python string `<=`: lexicographic by code points. -/
def strLE (a b : String) : Bool :=
  codeLE (a.toList.map Char.toNat) (b.toList.map Char.toNat)

/-- The comparison of Python's `sorted(chgs, key=lambda c: [c.priority, c.id])`:
lexicographic on the pair `(priority, id)`, ids compared by code points. -/
def changeLE (a b : Change) : Bool :=
  a.priority < b.priority || (a.priority = b.priority && strLE a.id b.id)

/-- Python `sorted` on changes: a stable sort by `changeLE`. -/
def sortChanges (cs : List Change) : List Change :=
  cs.mergeSort changeLE

/-- `Build.changeset_add_dir`: collect the directory, sort, and extend the
orchestrator's changeset. -/
def changeset_add_dir (files : List String) (changeset : List Change) : List Change :=
  changeset ++ sortChanges (collect_dir files)

/-! ### Filesystem model

A flat filesystem: named directories, each a list of `(file name, content)`
entries; lookups take the first matching entry, so prepending overrides. -/

/-- Contents of one directory: file names with their contents. -/
abbrev Dir' : Type := List (String × String)

/-- Lookup of a file's content inside a directory. -/
def Dir'.lookup (d : Dir') (f : String) : Option String :=
  List.lookup f d

/-- `is_empty_dir` from `build.py`: the directory has no entries. -/
def Dir'.isEmptyDir (d : Dir') : Bool :=
  List.isEmpty d

/-- `shutil.copytree(src=s, dst=d, dirs_exist_ok=True)`: entries of `s` overlay
the entries of `d`; colliding names take `s`'s content. -/
def copytree (s d : Dir') : Dir' :=
  (s : List (String × String)) ++ d

/-- The filesystem: a finite map from directory name to contents. -/
abbrev FS : Type := List (String × Dir')

/-- Lookup of a directory in the filesystem. -/
def FS.lookup (fs : FS) (n : String) : Option Dir' :=
  List.lookup n fs

/-- Set (create or overwrite) a directory. -/
def FS.set (fs : FS) (n : String) (d : Dir') : FS :=
  (n, d) :: List.filter (fun e => !(e.1 == n)) fs

/-- Remove a directory (`TemporaryDirectory.cleanup`). -/
def FS.erase (fs : FS) (n : String) : FS :=
  List.filter (fun e => !(e.1 == n)) fs

/-- `Path.mkdir(exist_ok=True)`: create the directory empty when absent. -/
def FS.mkdirExistOk (fs : FS) (n : String) : FS :=
  match fs.lookup n with
  | some _ => fs
  | none => fs.set n []

/-! ### The Build orchestrator state -/

/-- The mutable attributes of a `Build` instance that the orchestrator, the
staging manager and the apply loop touch.  `W` is the type of the abstract
environment payload a change unit's `build()` entry operation works on (the
attributes the units set on `env`); the orchestrator threads it through the
queue.  `builddir_orig` is `none` when the attribute was never assigned
(`getattr(self, 'builddir_orig', default)` then takes the default).
`change_queue` starts empty; `build()` assigns it before the loop. -/
structure BuildSt (W : Type) where
  builddir : String
  changesetdir : String
  auto_tmpdir : Bool
  changeset : List Change
  change_queue : List Change
  tmpdir : Option String
  builddir_orig : Option String
  world : W
  fs : FS
deriving DecidableEq, Repr

/-- `Build.tmpdir_mount(move_files=True)`.  `t` is the fresh directory name
chosen by `tempfile.TemporaryDirectory` (which creates `t` empty); the mount
fails with `BuildError` when a tmpdir is already mounted, otherwise it swaps
`builddir` to `t`, records the original, ensures the original exists, and —
when `move_files` is set and the original is non-empty — copies the original's
contents into `t`. -/
def tmpdir_mount {W : Type} (t : String) (move_files : Bool) (st : BuildSt W) :
    PyResult (BuildSt W) :=
  match st.tmpdir with
  | some _ => .raised (.buildError "tmpdir already mounted") st
  | none =>
    let fs1 := st.fs.set t []
    let orig := st.builddir
    let st1 : BuildSt W :=
      { st with fs := fs1, tmpdir := some t, builddir := t, builddir_orig := some orig }
    let fs2 := st1.fs.mkdirExistOk orig
    let origDir := (fs2.lookup orig).getD []
    let fs3 :=
      if move_files && !origDir.isEmptyDir then
        fs2.set t (copytree origDir (((fs2.lookup t)).getD []))
      else fs2
    .ok { st1 with fs := fs3 }

/-- `Build.tmpdir_umount(move_files=True)`.  Restores `builddir` from
`builddir_orig` first (even when nothing is mounted); when no tmpdir is
mounted it only warns and returns; otherwise it asserts the current builddir
is still the tmpdir, copies the tmpdir's contents back over the original when
`move_files` is set and the tmpdir is non-empty, removes the tmpdir and clears
the handle. -/
def tmpdir_umount {W : Type} (move_files : Bool) (st : BuildSt W) :
    PyResult (BuildSt W) :=
  let curdir := st.builddir
  let st1 : BuildSt W := { st with builddir := st.builddir_orig.getD st.builddir }
  match st.tmpdir with
  | none => .ok st1
  | some t =>
    if curdir ≠ t then
      .raised (.assertionError "tmpdir handle changed during build") st1
    else
      let curContents := (st1.fs.lookup curdir).getD []
      let fs1 :=
        if move_files && !curContents.isEmptyDir then
          st1.fs.set st1.builddir (copytree curContents ((st1.fs.lookup st1.builddir).getD []))
        else st1.fs
      let fs2 := fs1.erase curdir
      .ok { st1 with fs := fs2, tmpdir := none }

/-! ### Change application and the build loop -/

/-- The programs of the change units: for each source file, the `build(env,
log)` entry operation as a transformer of the environment payload, which may
raise.  `runpy.run_path` plus the `globs['build']` lookup is modelled as this
table. -/
def Progs (W : Type) : Type :=
  String → W → Except Err W

/-- `Change.apply`: run the unit's file and invoke its `build` entry operation
with the environment.  Any error the entry operation raises propagates as
is — the source has no wrapping around the call. -/
def Change.apply {W : Type} (progs : Progs W) (c : Change) (w : W) : Except Err W :=
  progs c.file w

/-- The `while self.change_queue:` loop of `Build.build`: pop the front change
(the pop happens before the apply), apply it, stop at the first raise with the
state as it stands then. -/
def applyQueue {W : Type} (progs : Progs W) : List Change → BuildSt W → PyResult (BuildSt W)
  | [], st => .ok st
  | chg :: rest, st =>
    let st1 : BuildSt W := { st with change_queue := rest }
    match Change.apply progs chg st1.world with
    | .error e => .raised e st1
    | .ok w => applyQueue progs rest { st1 with world := w }

/-- `Build.build()`: copy the changeset, fail fast when it is empty, mount the
tmpdir when `auto_tmpdir` is set (with `t` the fresh name tempfile picks),
drain the queue, and unmount the tmpdir afterwards when one is mounted.  The
apply loop is not wrapped in any handler: a raise inside it propagates
immediately, skipping the unmount. -/
def Build.build {W : Type} (t : String) (progs : Progs W) (st : BuildSt W) :
    PyResult (BuildSt W) :=
  let changes := st.changeset
  if changes.isEmpty then
    .raised (.buildError "Changeset is empty, nothing to build") st
  else
    match (if st.auto_tmpdir then tmpdir_mount t true st else .ok st) with
    | .raised e st1 => .raised e st1
    | .ok st1 =>
      match applyQueue progs changes { st1 with change_queue := changes } with
      | .raised e st2 => .raised e st2
      | .ok st2 =>
        match (if st2.tmpdir.isSome then tmpdir_umount true st2 else .ok st2) with
        | .raised e st3 => .raised e st3
        | .ok st3 => .ok st3

/-- The `BuildError('Changeset is empty, nothing to build')` of `Build.build`,
which the spec names `EmptyChangesetError`. -/
def EmptyChangesetError : Err :=
  .buildError "Changeset is empty, nothing to build"

/-! ### Configuration layering -/

/-- `Build.configure_vars(**buildvars)`: set every attribute the kwargs dict
supplies, leaving the others as they are.  Attributes are modelled as a bag
`String → String`; the dict as `String → Option String`.  (The trailing
`Path(...)` normalization of `builddir`/`changesetdir` re-wraps the same
string value and is invisible at this abstraction.) -/
def configure_vars (buildvars : String → Option String) (a : String → String) :
    String → String :=
  fun k => (buildvars k).getD (a k)

/-- Outcome of `yaml.load` on the config file: missing file, any other load or
application failure, or a successfully parsed mapping. -/
inductive YamlLoad where
  | fileNotFound
  | malformed
  | parsed (vars : String → Option String)

/-- The `BuildError` raised by `configure_yaml` for a present but invalid
config file, which the spec names `ConfigError`. -/
def ConfigError (cfgname : String) : Err :=
  .buildError ("Config file \"" ++ cfgname ++ "\" is not valid YML config")

/-- `Build.configure_yaml(configfile)`: re-raise `FileNotFoundError`, turn any
other failure into `BuildError`, otherwise apply the parsed mapping via
`configure_vars`. -/
def configure_yaml (cfgname : String) (file : YamlLoad) (a : String → String) :
    PyResult (String → String) :=
  match file with
  | .fileNotFound => .raised .fileNotFound a
  | .malformed => .raised (ConfigError cfgname) a
  | .parsed vars => .ok (configure_vars vars a)

/-- The configuration-layering part of `Build.configure(**buildvars)` (the
subsequent changeset-population step sets no configuration keys): pick the
config-file name from the kwargs or the current attributes, load the YAML
layer — tolerating only `FileNotFoundError` — then apply the kwargs layer on
top. -/
def configure (file : YamlLoad) (buildvars : String → Option String)
    (a : String → String) : PyResult (String → String) :=
  let cfgname := (buildvars "build_config").getD (a "build_config")
  match configure_yaml cfgname file a with
  | .raised .fileNotFound a1 => .ok (configure_vars buildvars a1)
  | .raised e a1 => .raised e a1
  | .ok a1 => .ok (configure_vars buildvars a1)

/-! ### Helper lemmas about the filesystem model -/

theorem lookup_filter_ne (m n : String) (h : m ≠ n) :
    ∀ (l : List (String × Dir')), List.lookup m (l.filter (fun e => !(e.1 == n))) = List.lookup m l := by
  intro l
  induction l with
  | nil => rfl
  | cons e l ih =>
    obtain ⟨k, v⟩ := e
    by_cases he : k = n
    · have hm : (m == k) = false := by simp [he, h]
      have hmn : (m == n) = false := by simp [h]
      simp [List.filter_cons, he, List.lookup_cons, hm, hmn, ih]
    · by_cases hm : m = k
      · simp [List.filter_cons, he, List.lookup_cons, hm]
      · have hm' : (m == k) = false := by simp [hm]
        simp [List.filter_cons, he, List.lookup_cons, hm', ih]

theorem FS.lookup_set (fs : FS) (n : String) (d : Dir') (m : String) :
    (fs.set n d).lookup m = if m = n then some d else fs.lookup m := by
  by_cases h : m = n
  · have hb : (m == n) = true := by simp [h]
    simp only [FS.set, FS.lookup, List.lookup_cons, hb, if_pos h]
  · have hb : (m == n) = false := by simp [h]
    simp only [FS.set, FS.lookup, List.lookup_cons, hb, if_neg h, lookup_filter_ne m n h]

theorem FS.lookup_erase_ne (fs : FS) (n : String) (m : String) (h : m ≠ n) :
    (fs.erase n).lookup m = fs.lookup m := by
  simp only [FS.erase, FS.lookup, lookup_filter_ne m n h]

theorem Dir'.lookup_append_left (d l : Dir') (F : String) (C : String)
    (h : d.lookup F = some C) : Dir'.lookup (d ++ l) F = some C := by
  simp only [Dir'.lookup] at h ⊢
  rw [List.lookup_append, h]
  rfl

/-! ### The change comparator is total and transitive -/

theorem codeLE_total : ∀ xs ys : List Nat, codeLE xs ys || codeLE ys xs := by
  intro xs
  induction xs with
  | nil => intro ys; simp [codeLE]
  | cons a as ih =>
    intro ys
    cases ys with
    | nil => simp [codeLE]
    | cons b bs =>
      by_cases hab : a = b
      · subst hab
        simpa [codeLE] using ih bs
      · have : a < b ∨ b < a := by omega
        rcases this with h | h
        · simp [codeLE, hab, h]
        · simp [codeLE, hab, Ne.symm hab, h]

theorem codeLE_trans : ∀ xs ys zs : List Nat,
    codeLE xs ys = true → codeLE ys zs = true → codeLE xs zs = true := by
  intro xs
  induction xs with
  | nil => intro ys zs _ _; simp [codeLE]
  | cons a as ih =>
    intro ys zs h1 h2
    cases ys with
    | nil => simp [codeLE] at h1
    | cons b bs =>
      cases zs with
      | nil => simp [codeLE] at h2
      | cons c cs =>
        simp only [codeLE] at h1 h2 ⊢
        split_ifs at h1 h2 ⊢ with hab hbc hac <;>
          first
            | exact ih _ _ h1 h2
            | (simp only [decide_eq_true_eq] at h1 h2 ⊢; omega)

theorem changeLE_total (a b : Change) : changeLE a b || changeLE b a := by
  simp only [changeLE, strLE]
  by_cases hp : a.priority = b.priority
  · have h := codeLE_total (a.id.toList.map Char.toNat) (b.id.toList.map Char.toNat)
    rcases Bool.or_eq_true_iff.mp h with h' | h'
    · simp only [Bool.or_eq_true_iff, Bool.and_eq_true_iff, decide_eq_true_eq]
      exact Or.inl (Or.inr ⟨hp, h'⟩)
    · simp only [Bool.or_eq_true_iff, Bool.and_eq_true_iff, decide_eq_true_eq]
      exact Or.inr (Or.inr ⟨hp.symm, h'⟩)
  · have : a.priority < b.priority ∨ b.priority < a.priority := by omega
    rcases this with h | h <;> simp [h]

theorem changeLE_trans (a b c : Change) :
    changeLE a b = true → changeLE b c = true → changeLE a c = true := by
  intro h1 h2
  simp only [changeLE, strLE, Bool.or_eq_true_iff, Bool.and_eq_true_iff,
    decide_eq_true_eq] at h1 h2 ⊢
  rcases h1 with h1 | ⟨h1p, h1s⟩ <;> rcases h2 with h2 | ⟨h2p, h2s⟩
  · exact Or.inl (by omega)
  · exact Or.inl (by omega)
  · exact Or.inl (by omega)
  · exact Or.inr ⟨by omega, codeLE_trans _ _ _ h1s h2s⟩

/-! ### Parsing a well-formed change file name -/

theorem takeWhile_digits_append (N : List Char) (rest : List Char)
    (hdig : ∀ c ∈ N, c.isDigit) :
    (N ++ '_' :: rest).takeWhile Char.isDigit = N
    ∧ (N ++ '_' :: rest).dropWhile Char.isDigit = '_' :: rest := by
  induction N with
  | nil =>
    constructor
    · simp [List.takeWhile_cons]
    · simp [List.dropWhile_cons]
  | cons c cs ih =>
    have hc : c.isDigit = true := hdig c (by simp)
    have hrest : ∀ x ∈ cs, x.isDigit := fun x hx => hdig x (by simp [hx])
    obtain ⟨iht, ihd⟩ := ih hrest
    constructor
    · simp [List.takeWhile_cons, hc, iht]
    · simp [List.dropWhile_cons, hc, ihd]

theorem fnameMatch_valid (N id : List Char) (hN : N ≠ [])
    (hdig : ∀ c ∈ N, c.isDigit) (hid : '\n' ∉ id) :
    fnameMatch (N ++ '_' :: (id ++ ['.', 'p', 'y'])) = some (N, id) := by
  obtain ⟨ht, hd⟩ := takeWhile_digits_append N (id ++ ['.', 'p', 'y']) hdig
  have hne : N.isEmpty = false := by
    cases N with
    | nil => exact absurd rfl hN
    | cons a l => rfl
  have hlen : 3 ≤ (id ++ ['.', 'p', 'y']).length := by
    simp
  have hsub : (id ++ ['.', 'p', 'y']).length - 3 = id.length := by
    simp
  have htake : (id ++ ['.', 'p', 'y']).take id.length = id := List.take_left id _
  have hdrop : (id ++ ['.', 'p', 'y']).drop id.length = ['.', 'p', 'y'] := List.drop_left id _
  simp only [fnameMatch, ht, hd, hne, Bool.false_eq_true, if_false, hlen, if_pos hlen,
    hsub, htake, hdrop, hid, not_false_iff, and_true, if_pos rfl]
  simp [hid]

/-! ### The orchestrator never touches the changeset attribute -/

theorem tmpdir_mount_state_changeset {W : Type} (t : String) (mv : Bool) (st : BuildSt W) :
    ((tmpdir_mount t mv st).state).changeset = st.changeset
    ∧ ((tmpdir_mount t mv st).state).world = st.world := by
  unfold tmpdir_mount
  cases st.tmpdir <;> simp [PyResult.state]

theorem tmpdir_umount_state_changeset {W : Type} (mv : Bool) (st : BuildSt W) :
    ((tmpdir_umount mv st).state).changeset = st.changeset
    ∧ ((tmpdir_umount mv st).state).world = st.world := by
  unfold tmpdir_umount
  cases st.tmpdir with
  | none => simp [PyResult.state]
  | some tn =>
    by_cases h : st.builddir = tn <;> simp [PyResult.state, h]

theorem applyQueue_state_changeset {W : Type} (progs : Progs W) :
    ∀ (q : List Change) (st : BuildSt W),
      ((applyQueue progs q st).state).changeset = st.changeset := by
  intro q
  induction q with
  | nil => intro st; simp [applyQueue, PyResult.state]
  | cons chg rest ih =>
    intro st
    unfold applyQueue
    cases h : Change.apply progs chg st.world with
    | error e => simp [PyResult.state, h]
    | ok w => simp [h, ih]

theorem build_state_changeset {W : Type} (t : String) (progs : Progs W) (st : BuildSt W) :
    ((Build.build t progs st).state).changeset = st.changeset := by
  by_cases hempty : st.changeset.isEmpty
  · simp [Build.build, hempty, PyResult.state]
  · simp only [Build.build, hempty, Bool.false_eq_true, if_false]
    split
    next e st1 hm =>
      have h1 : st1.changeset = st.changeset := by
        by_cases ha : st.auto_tmpdir
        · have h := (tmpdir_mount_state_changeset t true st).1
          simp only [ha, if_true] at hm
          rw [hm] at h
          simpa [PyResult.state] using h
        · simp [ha] at hm
      simpa [PyResult.state] using h1
    next st1 hm =>
      have h1 : st1.changeset = st.changeset := by
        by_cases ha : st.auto_tmpdir
        · have h := (tmpdir_mount_state_changeset t true st).1
          simp only [ha, if_true] at hm
          rw [hm] at h
          simpa [PyResult.state] using h
        · simp [ha] at hm
          rw [hm]
      split
      next e st2 hq =>
        have h2 := applyQueue_state_changeset progs st.changeset { st1 with change_queue := st.changeset }
        rw [hq] at h2
        simp only [PyResult.state] at h2
        simpa [PyResult.state] using h2.trans h1
      next st2 hq =>
        have h2 := applyQueue_state_changeset progs st.changeset { st1 with change_queue := st.changeset }
        rw [hq] at h2
        simp only [PyResult.state] at h2
        split
        next e st3 hu =>
          have h3 : st3.changeset = st2.changeset := by
            by_cases hs : st2.tmpdir.isSome
            · have h := (tmpdir_umount_state_changeset true st2).1
              simp only [hs, if_true] at hu
              rw [hu] at h
              simpa [PyResult.state] using h
            · simp [hs] at hu
          simp only [PyResult.state]
          rw [h3, h2]
          exact h1
        next st3 hu =>
          have h3 : st3.changeset = st2.changeset := by
            by_cases hs : st2.tmpdir.isSome
            · have h := (tmpdir_umount_state_changeset true st2).1
              simp only [hs, if_true] at hu
              rw [hu] at h
              simpa [PyResult.state] using h
            · simp [hs] at hu
              rw [hu]
          simp only [PyResult.state]
          rw [h3, h2]
          exact h1

/-! ### Concrete fixtures used by witnesses and counterexamples -/

/-- The change `1_a.py`. -/
def exChange1 : Change := { priority := 1, id := "a", name := "A", file := "1_a.py" }

/-- The change `2_b.py`. -/
def exChange2 : Change := { priority := 2, id := "b", name := "B", file := "2_b.py" }

/-- The change `3_c.py`. -/
def exChange3 : Change := { priority := 3, id := "c", name := "C", file := "3_c.py" }

/-- Unit programs that always succeed, incrementing a counter world. -/
def exProgsOk : Progs Nat := fun _ w => .ok (w + 1)

/-- Unit programs where the unit of `2_b.py` raises and every other unit
succeeds. -/
def exProgsFail2 : Progs Nat := fun f w =>
  if f = "2_b.py" then .error (.pyErr "boom") else .ok (w + 1)

/-- A `Build` instance with an empty changeset. -/
def emptySt : BuildSt Nat :=
  { builddir := "build", changesetdir := "changeset", auto_tmpdir := true,
    changeset := [], change_queue := [], tmpdir := none, builddir_orig := none,
    world := 0, fs := [] }

/-- A `Build` instance with one change and auto staging disabled. -/
def okSt : BuildSt Nat :=
  { builddir := "build", changesetdir := "changeset", auto_tmpdir := false,
    changeset := [exChange1], change_queue := [], tmpdir := none,
    builddir_orig := none, world := 0, fs := [] }

/-- A `Build` instance whose `builddir` was reconfigured to `"C"` after an
earlier staging session recorded `builddir_orig = "B"`; no session is
active. -/
def inactiveSt : BuildSt Nat :=
  { builddir := "C", changesetdir := "changeset", auto_tmpdir := true,
    changeset := [], change_queue := [], tmpdir := none,
    builddir_orig := some "B", world := 0, fs := [] }

/-- A `Build` instance with a staging session active on tmpdir `"T"`. -/
def mountedSt : BuildSt Nat :=
  { builddir := "T", changesetdir := "changeset", auto_tmpdir := true,
    changeset := [], change_queue := [], tmpdir := some "T",
    builddir_orig := some "B", world := 0, fs := [("T", []), ("B", [])] }

/-! ### Claims -/

/-- C3: calling `build()` with an empty changeset queue raises
`EmptyChangesetError` (the `BuildError` with that message) with the instance
state completely unchanged: no staging session is entered and the filesystem,
in particular the real build directory, is untouched. -/
theorem build_empty_changeset_fails_fast {W : Type} (t : String) (progs : Progs W)
    (st : BuildSt W) (h : st.changeset = []) :
    Build.build t progs st = .raised EmptyChangesetError st := by
  simp [Build.build, h, EmptyChangesetError]

/-- Witness for C3 at a concrete empty-changeset instance. -/
theorem build_empty_changeset_fails_fast_witness :
    emptySt.changeset = [] ∧
    Build.build "T" exProgsOk emptySt = .raised EmptyChangesetError emptySt :=
  ⟨rfl, build_empty_changeset_fails_fast "T" exProgsOk emptySt rfl⟩

/-- C10: a successful `build()` leaves the orchestrator's changeset attribute
exactly as it was — the loop pops only from the separate `change_queue` copy,
so a later `build()` would re-apply the same changes. -/
theorem build_preserves_changeset {W : Type} (t : String) (progs : Progs W)
    (st st' : BuildSt W) (h : Build.build t progs st = .ok st') :
    st'.changeset = st.changeset := by
  have hc := build_state_changeset t progs st
  rw [h] at hc
  simpa [PyResult.state] using hc

/-- Witness for C10: a concrete successful run preserving the changeset. -/
theorem build_preserves_changeset_witness :
    Build.build "T" exProgsOk okSt = .ok { okSt with change_queue := [], world := 1 } ∧
    ({ okSt with change_queue := [], world := 1 } : BuildSt Nat).changeset = okSt.changeset :=
  ⟨by decide, build_preserves_changeset "T" exProgsOk okSt _ (by decide)⟩

/-- C2 (amended): `Change.apply` propagates any error raised by the unit's
entry operation unchanged — the raw underlying exception, with no wrapping
layer added around it. -/
theorem change_apply_propagates_raw {W : Type} (progs : Progs W) (c : Change)
    (w : W) (e : Err) (h : progs c.file w = .error e) :
    Change.apply progs c w = .error e := by
  simpa [Change.apply] using h

/-- Witness for C2 (amended) at a concrete failing unit. -/
theorem change_apply_propagates_raw_witness :
    (exProgsFail2 exChange2.file 0 = .error (.pyErr "boom")) ∧
    Change.apply exProgsFail2 exChange2 0 = .error (.pyErr "boom") :=
  ⟨rfl, change_apply_propagates_raw exProgsFail2 exChange2 0 _ rfl⟩

/-- C2 counterexample: at a concrete failing unit the error that comes out of
`Change.apply` is the raw underlying exception, not a `ChangeApplyError`
carrying the change's id and the cause as the claim states. -/
theorem change_apply_no_wrapping_cx :
    Change.apply exProgsFail2 exChange2 0 = .error (.pyErr "boom") ∧
    Change.apply exProgsFail2 exChange2 0 ≠
      .error (.changeApplyError "b" (.pyErr "boom")) := by
  constructor
  · rfl
  · intro h
    exact absurd (Except.error.inj h) (by decide)

/-- C6: configuration layering resolves every key `K` to the explicit
programmatic override when one is given, otherwise to the config-file value
when the file supplies `K`, otherwise to the built-in default — both when the
file layer is present and when it is absent (treated as empty, every key falls
through). -/
theorem configure_layering_precedence (y bv : String → Option String)
    (a : String → String) (K : String) :
    ∃ a1 a2,
      configure (.parsed y) bv a = .ok a1
      ∧ a1 K = (bv K).getD ((y K).getD (a K))
      ∧ configure .fileNotFound bv a = .ok a2
      ∧ a2 K = (bv K).getD (a K) :=
  ⟨_, _, rfl, rfl, rfl, rfl⟩

/-- C7: a missing config file is tolerated — configuration succeeds with the
YAML layer contributing nothing — while a present but malformed config file is
fatal with `ConfigError`. -/
theorem configure_file_error_policy (bv : String → Option String)
    (a : String → String) :
    configure .fileNotFound bv a = .ok (configure_vars bv a)
    ∧ configure .malformed bv a =
        .raised (ConfigError ((bv "build_config").getD (a "build_config"))) a :=
  ⟨rfl, rfl⟩

/-- C9 (amended): at most one staging session is active per instance —
mounting while one is active raises `BuildError` and leaves the state
unchanged; unmounting while none is active returns without error, leaving all
state unchanged except that `builddir` is reset to the recorded
`builddir_orig` when one was recorded by an earlier session (a strict no-op
when none was ever recorded). -/
theorem tmpdir_session_boundary {W : Type} (stA stB : BuildSt W) (t tm : String)
    (mv mv2 : Bool) (hA : stA.tmpdir = some tm) (hB : stB.tmpdir = none) :
    tmpdir_mount t mv stA = .raised (.buildError "tmpdir already mounted") stA
    ∧ tmpdir_umount mv2 stB =
        .ok { stB with builddir := stB.builddir_orig.getD stB.builddir } := by
  constructor
  · simp [tmpdir_mount, hA]
  · simp [tmpdir_umount, hB]

/-- Witness for C9 (amended) at concrete states. -/
theorem tmpdir_session_boundary_witness :
    mountedSt.tmpdir = some "T" ∧ inactiveSt.tmpdir = none ∧
    tmpdir_mount "U" true mountedSt =
      .raised (.buildError "tmpdir already mounted") mountedSt ∧
    tmpdir_umount true inactiveSt =
      .ok { inactiveSt with builddir := inactiveSt.builddir_orig.getD inactiveSt.builddir } :=
  ⟨rfl, rfl,
    (tmpdir_session_boundary mountedSt inactiveSt "U" "T" true true rfl rfl).1,
    (tmpdir_session_boundary mountedSt inactiveSt "U" "T" true true rfl rfl).2⟩

/-- C9 counterexample: unmounting with no active session is not always a
no-op — on an instance whose `builddir` was changed after an earlier session
recorded `builddir_orig`, the inactive unmount silently resets `builddir`
from `"C"` back to `"B"`, so the state does change. -/
theorem tmpdir_umount_inactive_not_noop_cx :
    (tmpdir_umount true inactiveSt).err = none
    ∧ (tmpdir_umount true inactiveSt).state.builddir = "B"
    ∧ inactiveSt.builddir = "C"
    ∧ (tmpdir_umount true inactiveSt).state ≠ inactiveSt := by
  refine ⟨by decide, by decide, by decide, by decide⟩

/-! ### Exact behavior of mount and unmount on fresh and mounted states -/

theorem tmpdir_mount_fresh_nonempty {W : Type} (st : BuildSt W) (t : String) (d : Dir')
    (hno : st.tmpdir = none) (hfresh : st.fs.lookup t = none)
    (horig : st.fs.lookup st.builddir = some d) (hne : d.isEmptyDir = false) :
    tmpdir_mount t true st =
      .ok { st with fs := (st.fs.set t []).set t (copytree d []),
                    tmpdir := some t, builddir := t,
                    builddir_orig := some st.builddir } := by
  have htne : t ≠ st.builddir := by
    intro h
    rw [h, horig] at hfresh
    cases hfresh
  have hlo : (st.fs.set t []).lookup st.builddir = some d := by
    rw [FS.lookup_set, if_neg (Ne.symm htne), horig]
  have hlt : (st.fs.set t []).lookup t = some [] := by
    rw [FS.lookup_set, if_pos rfl]
  simp only [tmpdir_mount, hno, FS.mkdirExistOk, hlo, hlt, Option.getD_some, hne,
    Bool.not_false, Bool.and_true, if_true]

theorem tmpdir_umount_mounted {W : Type} (st : BuildSt W) (t orig : String)
    (dcur dorig : Dir')
    (htm : st.tmpdir = some t) (hbd : st.builddir = t)
    (horig : st.builddir_orig = some orig)
    (hcur : st.fs.lookup t = some dcur) (hne : dcur.isEmptyDir = false)
    (hod : st.fs.lookup orig = some dorig) :
    tmpdir_umount true st =
      .ok { st with builddir := orig, tmpdir := none,
                    fs := (st.fs.set orig (copytree dcur dorig)).erase t } := by
  simp only [tmpdir_umount, htm, hbd, horig, Option.getD_some, ne_eq,
    not_true_eq_false, if_false, hcur, hod, hne, Bool.not_false, Bool.and_true,
    if_true, ite_not]

theorem tmpdir_mount_fresh_empty {W : Type} (st : BuildSt W) (t : String) (d : Dir')
    (hno : st.tmpdir = none) (hfresh : st.fs.lookup t = none)
    (horig : st.fs.lookup st.builddir = some d) (he : d.isEmptyDir = true) :
    tmpdir_mount t true st =
      .ok { st with fs := st.fs.set t [], tmpdir := some t, builddir := t,
                    builddir_orig := some st.builddir } := by
  have htne : t ≠ st.builddir := by
    intro h
    rw [h, horig] at hfresh
    cases hfresh
  have hlo : (st.fs.set t []).lookup st.builddir = some d := by
    rw [FS.lookup_set, if_neg (Ne.symm htne), horig]
  simp only [tmpdir_mount, hno, FS.mkdirExistOk, hlo, Option.getD_some, he,
    Bool.not_true, Bool.and_false, Bool.false_eq_true, if_false]

theorem tmpdir_mount_fresh {W : Type} (st : BuildSt W) (t : String) (d : Dir')
    (hno : st.tmpdir = none) (hfresh : st.fs.lookup t = none)
    (horig : st.fs.lookup st.builddir = some d) :
    tmpdir_mount t true st =
      .ok { st with
            fs := if d.isEmptyDir then st.fs.set t []
                  else (st.fs.set t []).set t (copytree d []),
            tmpdir := some t, builddir := t,
            builddir_orig := some st.builddir } := by
  by_cases hd : d.isEmptyDir
  · rw [tmpdir_mount_fresh_empty st t d hno hfresh horig hd]
    simp [hd]
  · rw [tmpdir_mount_fresh_nonempty st t d hno hfresh horig (by simpa using hd)]
    simp [hd]

/-- C8: the staging round trip is the identity on the build directory's
contents — for every instance with no active session, a build directory
containing file `F` with content `C`, and a fresh tmpdir name `t`, mounting
and then immediately unmounting (no modification in between) succeeds and the
build directory is restored as the effective directory, still containing `F`
with content `C`. -/
theorem staging_round_trip {W : Type} (st : BuildSt W) (t F C : String) (d : Dir')
    (hno : st.tmpdir = none) (hfresh : st.fs.lookup t = none)
    (horig : st.fs.lookup st.builddir = some d) (hF : d.lookup F = some C) :
    ∃ st1 st2, tmpdir_mount t true st = .ok st1 ∧ tmpdir_umount true st1 = .ok st2
      ∧ st2.builddir = st.builddir ∧ st2.tmpdir = none
      ∧ ∃ d2, st2.fs.lookup st.builddir = some d2 ∧ d2.lookup F = some C := by
  have hdne : d.isEmptyDir = false := by
    cases d with
    | nil => simp [Dir'.lookup, List.lookup] at hF
    | cons e l => rfl
  have htne : t ≠ st.builddir := by
    intro h
    rw [h, horig] at hfresh
    cases hfresh
  have hm := tmpdir_mount_fresh_nonempty st t d hno hfresh horig hdne
  have hcur : (((st.fs.set t []).set t (copytree d []))).lookup t = some (copytree d []) := by
    rw [FS.lookup_set, if_pos rfl]
  have hcne : (copytree d []).isEmptyDir = false := by
    cases d with
    | nil => simp [Dir'.isEmptyDir] at hdne
    | cons e l => rfl
  have hod : (((st.fs.set t []).set t (copytree d []))).lookup st.builddir = some d := by
    rw [FS.lookup_set, if_neg (Ne.symm htne), FS.lookup_set, if_neg (Ne.symm htne), horig]
  have hu := tmpdir_umount_mounted
    { st with fs := (st.fs.set t []).set t (copytree d []), tmpdir := some t,
              builddir := t, builddir_orig := some st.builddir }
    t st.builddir (copytree d []) d rfl rfl rfl hcur hcne hod
  refine ⟨_, _, hm, hu, rfl, rfl, copytree (copytree d []) d, ?_, ?_⟩
  · show ((((st.fs.set t []).set t (copytree d [])).set st.builddir
      (copytree (copytree d []) d)).erase t).lookup st.builddir = _
    rw [FS.lookup_erase_ne _ _ _ (Ne.symm htne), FS.lookup_set, if_pos rfl]
  · exact Dir'.lookup_append_left _ _ _ _ (Dir'.lookup_append_left d [] F C hF)

/-- A `Build` instance with build directory `"B"` holding file `"F"` with
content `"C"`, no active session. -/
def roundSt : BuildSt Nat :=
  { builddir := "B", changesetdir := "changeset", auto_tmpdir := true,
    changeset := [], change_queue := [], tmpdir := none, builddir_orig := none,
    world := 0, fs := [("B", [("F", "C")])] }

/-- Witness for C8 at the concrete instance `roundSt` with fresh tmpdir
`"T"`. -/
theorem staging_round_trip_witness :
    roundSt.tmpdir = none ∧ roundSt.fs.lookup "T" = none
    ∧ roundSt.fs.lookup roundSt.builddir = some [("F", "C")]
    ∧ Dir'.lookup [("F", "C")] "F" = some "C"
    ∧ ∃ st1 st2, tmpdir_mount "T" true roundSt = .ok st1
        ∧ tmpdir_umount true st1 = .ok st2
        ∧ st2.builddir = roundSt.builddir ∧ st2.tmpdir = none
        ∧ ∃ d2, st2.fs.lookup roundSt.builddir = some d2 ∧ d2.lookup "F" = some "C" :=
  ⟨rfl, rfl, rfl, rfl,
    staging_round_trip roundSt "T" "F" "C" [("F", "C")] rfl rfl rfl rfl⟩

/-- C1 (amended): on a queue of three changes where the second raises, the
orchestrator applies change 1, attempts change 2 (which fails), never attempts
change 3 (it stays in the queue), and the error propagates to the caller
WITHOUT the staging session being exited: the apply loop has no handler, so
the tmpdir is still mounted as the effective build directory and the real
build directory is not updated. -/
theorem build_failure_skips_staging_commit {W : Type} (progs : Progs W)
    (st : BuildSt W) (c1 c2 c3 : Change) (t : String) (e : Err) (w1 : W) (d : Dir')
    (hqs : st.changeset = [c1, c2, c3])
    (hauto : st.auto_tmpdir = true)
    (hno : st.tmpdir = none)
    (hfresh : st.fs.lookup t = none)
    (horig : st.fs.lookup st.builddir = some d)
    (h1 : progs c1.file st.world = .ok w1)
    (h2 : progs c2.file w1 = .error e) :
    ∃ st', Build.build t progs st = .raised e st'
      ∧ st'.world = w1
      ∧ st'.change_queue = [c3]
      ∧ st'.tmpdir = some t
      ∧ st'.builddir = t
      ∧ st'.fs.lookup st.builddir = some d := by
  have hm := tmpdir_mount_fresh st t d hno hfresh horig
  refine ⟨{ st with
            builddir := t
            change_queue := [c3]
            tmpdir := some t
            builddir_orig := some st.builddir
            world := w1
            fs := if d.isEmptyDir then st.fs.set t []
                  else (st.fs.set t []).set t (copytree d []) },
    ?_, rfl, rfl, rfl, rfl, ?_⟩
  · simp only [Build.build, hqs, hauto, List.isEmpty_cons, Bool.false_eq_true,
      if_false, if_true, hm]
    simp only [applyQueue, Change.apply, h1, h2]
  · by_cases hd : d.isEmptyDir
    · simp only [hd, if_true]
      rw [FS.lookup_set]
      have htne : t ≠ st.builddir := by
        intro h
        rw [h, horig] at hfresh
        cases hfresh
      rw [if_neg (Ne.symm htne), horig]
    · simp only [hd, Bool.false_eq_true, if_false]
      have htne : t ≠ st.builddir := by
        intro h
        rw [h, horig] at hfresh
        cases hfresh
      rw [FS.lookup_set, if_neg (Ne.symm htne), FS.lookup_set,
        if_neg (Ne.symm htne), horig]

/-- A `Build` instance queued with three changes, auto staging on, build
directory `"B"` holding file `"F"` with content `"C"`. -/
def stagedFailSt : BuildSt Nat :=
  { builddir := "B", changesetdir := "changeset", auto_tmpdir := true,
    changeset := [exChange1, exChange2, exChange3], change_queue := [],
    tmpdir := none, builddir_orig := none, world := 0,
    fs := [("B", [("F", "C")])] }

/-- Witness for C1 (amended) at the concrete instance `stagedFailSt` with unit
programs where the second change raises. -/
theorem build_failure_skips_staging_commit_witness :
    stagedFailSt.changeset = [exChange1, exChange2, exChange3]
    ∧ exProgsFail2 exChange1.file 0 = .ok 1
    ∧ exProgsFail2 exChange2.file 1 = .error (.pyErr "boom")
    ∧ ∃ st', Build.build "T" exProgsFail2 stagedFailSt = .raised (.pyErr "boom") st'
        ∧ st'.world = 1
        ∧ st'.change_queue = [exChange3]
        ∧ st'.tmpdir = some "T"
        ∧ st'.builddir = "T"
        ∧ st'.fs.lookup stagedFailSt.builddir = some [("F", "C")] :=
  ⟨rfl, rfl, rfl,
    build_failure_skips_staging_commit exProgsFail2 stagedFailSt
      exChange1 exChange2 exChange3 "T" (.pyErr "boom") 1 [("F", "C")]
      rfl rfl rfl rfl rfl rfl rfl⟩

/-- C1 counterexample: at the concrete failing build the error reaches the
caller while the staging session has NOT been committed back: the tmpdir is
still mounted (not `none` as an exit would leave it). -/
theorem build_commit_on_failure_cx :
    (Build.build "T" exProgsFail2 stagedFailSt).err = some (.pyErr "boom")
    ∧ (Build.build "T" exProgsFail2 stagedFailSt).state.tmpdir = some "T"
    ∧ (Build.build "T" exProgsFail2 stagedFailSt).state.tmpdir ≠ none := by
  refine ⟨by decide, by decide, by decide⟩

unseal listReplace List.merge List.mergeSort

/-- C4: discovery over a directory listing keeps exactly the names that
fullmatch the `{digits}_{rest}.py` pattern, constructs one Change per match,
and — as extended into the changeset by `changeset_add_dir` — returns them
sorted ascending by `(priority, id)` with priority ties broken by lexical id
order; on the spec's example listing the resulting order is
`[1_a, 1_c, 2_b]`. -/
theorem collect_dir_discovery_sorted (files : List String) :
    (∀ c, c ∈ collect_dir files ↔ ∃ f ∈ files, Change.ofFile f = some c)
    ∧ (sortChanges (collect_dir files)).Perm (collect_dir files)
    ∧ (sortChanges (collect_dir files)).Pairwise (fun a b => changeLE a b = true)
    ∧ (∀ cs, changeset_add_dir files cs = cs ++ sortChanges (collect_dir files))
    ∧ (sortChanges (collect_dir ["2_b.py", "1_a.py", "1_c.py"])).map Change.id
        = ["a", "c", "b"] := by
  refine ⟨?_, ?_, ?_, fun _ => rfl, by decide⟩
  · intro c
    simp [collect_dir, List.mem_filterMap]
  · exact List.mergeSort_perm _ _
  · exact List.sorted_mergeSort
      (fun a b c hab hbc => changeLE_trans a b c hab hbc)
      (fun a b => changeLE_total a b) _

/-- C5 (amended): for every valid file name `N_<id>.py` with `N` a non-empty
digit string, constructing a Change yields `priority` equal to the integer
value of `N`, `id` equal to the raw middle segment, and `name` equal to the
humanization of `id`, where humanization collapses doubled underscores to a
literal underscore, turns remaining single underscores into spaces, and then
applies Python `str.capitalize` — upper-casing the first character and
lower-casing the rest; `"leg__press"` humanizes to `"Leg_press"` and
`"leg_press"` to `"Leg press"`. -/
theorem change_ofFile_parses_valid_names (N id : List Char) (hN : N ≠ [])
    (hdig : ∀ c ∈ N, c.isDigit) (hid : '\n' ∉ id) :
    Change.ofFile (String.mk (N ++ '_' :: (id ++ ['.', 'p', 'y']))) =
      some { priority := digitsToNat N
             id := String.mk id
             name := humanize (String.mk id)
             file := String.mk (N ++ '_' :: (id ++ ['.', 'p', 'y'])) }
    ∧ humanize "leg__press" = "Leg_press"
    ∧ humanize "leg_press" = "Leg press" := by
  refine ⟨?_, by decide, by decide⟩
  have h := fnameMatch_valid N id hN hdig hid
  simp only [Change.ofFile]
  rw [show (String.mk (N ++ '_' :: (id ++ ['.', 'p', 'y']))).toList
      = N ++ '_' :: (id ++ ['.', 'p', 'y']) from rfl, h]
  simp [humanize]

/-- Witness for C5 (amended) at the concrete file name `1_leg_press.py`. -/
theorem change_ofFile_parses_valid_names_witness :
    (['1'] : List Char) ≠ []
    ∧ (∀ c ∈ (['1'] : List Char), c.isDigit)
    ∧ '\n' ∉ (['l', 'e', 'g', '_', 'p', 'r', 'e', 's', 's'] : List Char)
    ∧ (Change.ofFile (String.mk (['1'] ++ '_' ::
        (['l', 'e', 'g', '_', 'p', 'r', 'e', 's', 's'] ++ ['.', 'p', 'y']))) =
      some { priority := digitsToNat ['1']
             id := String.mk ['l', 'e', 'g', '_', 'p', 'r', 'e', 's', 's']
             name := humanize (String.mk ['l', 'e', 'g', '_', 'p', 'r', 'e', 's', 's'])
             file := String.mk (['1'] ++ '_' ::
               (['l', 'e', 'g', '_', 'p', 'r', 'e', 's', 's'] ++ ['.', 'p', 'y'])) }
      ∧ humanize "leg__press" = "Leg_press"
      ∧ humanize "leg_press" = "Leg press") :=
  ⟨by decide, by decide, by decide,
    change_ofFile_parses_valid_names ['1'] ['l', 'e', 'g', '_', 'p', 'r', 'e', 's', 's']
      (by decide) (by decide) (by decide)⟩

/-- C5 counterexample: the claim's humanization — only the first letter
capitalized — disagrees with the code on ids with interior upper-case
letters: for `1_aB.py` the code produces name `"Ab"` (Python `capitalize`
lower-cases the rest) while the claim's humanization of `"aB"` is `"AB"`. -/
theorem humanize_not_spec_capitalize_cx :
    (Change.ofFile "1_aB.py").map Change.name = some "Ab"
    ∧ specHumanize "aB" = "AB"
    ∧ ("Ab" : String) ≠ "AB" := by
  refine ⟨by decide, by decide, by decide⟩
